import Mathlib

/-!
# GhostGuard backend — shallow embedding and verification

This file embeds the core logic of the GhostGuard backend (`src/index.js`):
the license verification endpoint (`POST /api/license/verify`), the in-memory
action mailbox (`pushAction`, `GET /api/server/actions/:license`), the
liveness tracker (`POST /api/server/heartbeat`,
`GET /api/server/status/:license`) and the bounded log buffer
(`pushServerLog`, `GET /api/server/logs/:license`), and proves the claimed
properties about them.

JavaScript conventions are modelled explicitly:
* a request field that may be `undefined`/`null` is an `Option`;
* JS truthiness on strings (`if (x)`, `x || d`) treats both absence and the
  empty string as false — see `truthy`, `orDefault`;
* machine time (`Date.now()`, timestamp strings) is an `Int` of milliseconds
  passed explicitly;
* the Supabase store is a `List LicenseRecord` plus a `StoreHealth` flag for
  upstream failure, and the store operations a request performs are returned
  as an explicit trace, so "no external call" is a statement about the trace.
-/

namespace GhostGuard

/-- JS truthiness for an optional string: `undefined`, `null` and `""` are
falsy, every other string is truthy. -/
def truthy : Option String → Bool
  | none => false
  | some s => s ≠ ""

/-- JS `x || d` on an optional string: falls back to `d` when `x` is falsy. -/
def orDefault (x : Option String) (d : String) : String :=
  match x with
  | none => d
  | some s => if s = "" then d else s

/-- JS `x || null` on an optional string: normalises falsy to `null`. -/
def orNull (x : Option String) : Option String :=
  match x with
  | none => none
  | some s => if s = "" then none else some s

/-- JS `x || 0` on an integer (`0` is falsy and maps to `0`, i.e. identity). -/
def orZero (x : Int) : Int :=
  if x = 0 then 0 else x

/-- JS `x || 0` on a count (`0` is falsy and maps to `0`, i.e. identity). -/
def orZeroNat (x : Nat) : Nat :=
  if x = 0 then 0 else x

/-! ## Association-list maps

The backend keeps its ephemeral state in plain JS objects keyed by
license_key (`actionQueue`, `serverState`, `livePlayersByLicense`,
`serverLogs`). We model such an object as an association list with
update-in-place semantics. -/

/-- Lookup in a JS-object-like map. -/
def mapGet {α : Type} (m : List (String × α)) (k : String) : Option α :=
  match m with
  | [] => none
  | (k', v) :: rest => if k' = k then some v else mapGet rest k

/-- Assignment `m[k] = v` in a JS-object-like map. -/
def mapSet {α : Type} (m : List (String × α)) (k : String) (v : α) :
    List (String × α) :=
  match m with
  | [] => [(k, v)]
  | (k', v') :: rest =>
      if k' = k then (k, v) :: rest else (k', v') :: mapSet rest k v

/-! ## License records and the external store -/

/-- A row of the external `licenses` table, as read by the verify endpoint.
`expires_at` and `last_seen` are millisecond timestamps (`null` allowed),
`hwid` is the optional bound device id. -/
structure LicenseRecord where
  id : Nat
  license_key : String
  status : String
  expires_at : Option Int
  hwid : Option String
  last_seen : Option Int
deriving Repr, DecidableEq

/-- Health of the external store for the duration of one request:
`healthy` — reads succeed; `errors` — the read returns an error object
(Supabase-style `{ data: null, error }`); `throws` — the read throws
(e.g. a timeout), landing in the catch block of the endpoint. -/
inductive StoreHealth where
  | healthy
  | errors
  | throws
deriving Repr, DecidableEq

/-- One external-store operation performed by the verify endpoint, recorded
so that "no external call is made" is expressible. -/
inductive StoreOp where
  | fetch (license_key : String)
  | bindHwid (id : Nat) (hwid : String)
  | touchLastSeen (id : Nat)
deriving Repr, DecidableEq

/-- `supabase.from("licenses").select("*").eq("license_key", key).single()`:
the first record with the given key, if any. -/
def dbFind (db : List LicenseRecord) (key : String) : Option LicenseRecord :=
  db.find? (fun r => r.license_key == key)

/-- `supabase.from("licenses").update({ hwid }).eq("id", id)`. -/
def updateHwid (db : List LicenseRecord) (id : Nat) (h : String) :
    List LicenseRecord :=
  db.map (fun r => if r.id = id then { r with hwid := some h } else r)

/-- `supabase.from("licenses").update({ last_seen: ... }).eq("id", id)`. -/
def updateLastSeen (db : List LicenseRecord) (id : Nat) (t : Int) :
    List LicenseRecord :=
  db.map (fun r => if r.id = id then { r with last_seen := some t } else r)

/-! ## Signing -/

/-- `process.env.LICENSE_SECRET || "change_me"`: the signing secret actually
used, with the hard-coded fallback of the source when the environment variable is
absent or empty. -/
def effectiveLicenseSecret (envSecret : Option String) : String :=
  orDefault envSecret "change_me"

/-- `crypto.createHmac("sha256", secret).update(payload).digest("hex")`.
The hash itself is cryptographic and outside the model; it is embedded as an
abstract tagging function, which suffices because no claim depends on the
value of the digest, only on which secret and payload are signed. -/
def hmacSHA256 (secret message : String) : String :=
  "hmac-sha256(" ++ secret ++ "," ++ message ++ ")"

/-- `JSON.stringify({ license_key, status, expires_at, issued_at })` with the
field order of the source. -/
def mkPayload (license_key status : String) (expires_at : Option Int)
    (issued_at : Int) : String :=
  "\x7b\"license_key\":\"" ++ license_key ++ "\",\"status\":\"" ++ status ++
    "\",\"expires_at\":" ++
    (match expires_at with
     | some e => toString e
     | none => "null") ++
    ",\"issued_at\":" ++ toString issued_at ++ "\x7d"

/-! ## The verify endpoint -/

/-- The JSON body answered by `POST /api/license/verify`, together with the
HTTP status code. -/
structure VerifyResponse where
  httpStatus : Nat
  valid : Bool
  reason : Option String
  payload : Option String
  signature : Option String
deriving Repr, DecidableEq

/-- Rejection response `res.status(s).json({ valid: false, reason })`. -/
def rejectWith (s : Nat) (reason : String) : VerifyResponse :=
  { httpStatus := s, valid := false, reason := some reason,
    payload := none, signature := none }

/-- `POST /api/license/verify` (src/index.js lines 57–102).

Inputs: the signing secret environment variable, the store health for this
request, the current time, the store contents, and the request body fields
`license_key` and `hwid`. Output: the response, the store contents after the
write-backs of the request, and the trace of store operations performed. -/
def verifyLicense (envSecret : Option String) (health : StoreHealth)
    (now : Int) (db : List LicenseRecord) (license_key hwid : Option String) :
    VerifyResponse × List LicenseRecord × List StoreOp :=
  if ¬ truthy license_key then
    (rejectWith 400 "MISSING_KEY", db, [])
  else
    let key := license_key.getD ""
    match health with
    | .throws => (rejectWith 500 "SERVER_ERROR", db, [.fetch key])
    | .errors => (rejectWith 200 "NOT_FOUND", db, [.fetch key])
    | .healthy =>
      match dbFind db key with
      | none => (rejectWith 200 "NOT_FOUND", db, [.fetch key])
      | some lic =>
        if lic.status ≠ "ACTIVE" then
          (rejectWith 200 lic.status, db, [.fetch key])
        else if (match lic.expires_at with
                 | some e => decide (e < now)
                 | none => false) then
          (rejectWith 200 "EXPIRED", db, [.fetch key])
        else if truthy lic.hwid then
          if truthy hwid ∧ lic.hwid ≠ hwid then
            (rejectWith 200 "HWID_MISMATCH", db, [.fetch key])
          else
            let db1 := updateLastSeen db lic.id now
            let payload := mkPayload key lic.status lic.expires_at now
            let signature := hmacSHA256 (effectiveLicenseSecret envSecret) payload
            ({ httpStatus := 200, valid := true, reason := none,
               payload := some payload, signature := some signature },
             db1, [.fetch key, .touchLastSeen lic.id])
        else if truthy hwid then
          let db1 := updateLastSeen (updateHwid db lic.id (hwid.getD "")) lic.id now
          let payload := mkPayload key lic.status lic.expires_at now
          let signature := hmacSHA256 (effectiveLicenseSecret envSecret) payload
          ({ httpStatus := 200, valid := true, reason := none,
             payload := some payload, signature := some signature },
           db1, [.fetch key, .bindHwid lic.id (hwid.getD ""), .touchLastSeen lic.id])
        else
          let db1 := updateLastSeen db lic.id now
          let payload := mkPayload key lic.status lic.expires_at now
          let signature := hmacSHA256 (effectiveLicenseSecret envSecret) payload
          ({ httpStatus := 200, valid := true, reason := none,
             payload := some payload, signature := some signature },
           db1, [.fetch key, .touchLastSeen lic.id])

/-! ## Action mailbox (Dashboard → FiveM) -/

/-- An entry of `actionQueue[license_key]`:
`{ id, type, payload, created_at }`. The payload is an opaque JSON value,
kept as its serialised string. -/
structure Action where
  id : String
  type : String
  payload : String
  created_at : String
deriving Repr, DecidableEq

/-- `pushAction(license_key, action)` on one queue (src/index.js 111–116):
append, then `if (length > 200) splice(0, 50)`. -/
def pushAction (q : List Action) (a : Action) : List Action :=
  let q1 := q ++ [a]
  if q1.length > 200 then q1.drop 50 else q1

/-- The effect of `POST /api/dashboard/action` on the queue map once the
license_key of the customer is resolved. -/
def enqueueAction (m : List (String × List Action)) (key : String)
    (a : Action) : List (String × List Action) :=
  mapSet m key (pushAction ((mapGet m key).getD []) a)

/-- `GET /api/server/actions/:license` (src/index.js 151–157): answer the
current queue (`actionQueue[license_key] || []`) and reset it to `[]`. -/
def drainActions (m : List (String × List Action)) (key : String) :
    List Action × List (String × List Action) :=
  ((mapGet m key).getD [], mapSet m key [])

/-! ## Liveness tracker (heartbeat / status) -/

/-- A roster entry posted by the agent: `{ id, name, ping }`. -/
structure Player where
  id : Nat
  name : String
  ping : Nat
deriving Repr, DecidableEq

/-- A value of `serverState[license_key]`:
`{ last_seen, players, uptime, version }`. -/
structure ServerState where
  last_seen : Int
  players : Nat
  uptime : Int
  version : Option String
deriving Repr, DecidableEq

/-- Body of `POST /api/server/heartbeat`. `players` is `some roster` when an
actual array was posted (`Array.isArray`), `none` otherwise. -/
structure HeartbeatReq where
  license_key : Option String
  players : Option (List Player)
  version : Option String
  uptime : Option Int
deriving Repr, DecidableEq

/-- `Array.isArray(players) ? players : []`. -/
def rosterOf (players : Option (List Player)) : List Player :=
  players.getD []

/-- `POST /api/server/heartbeat` (src/index.js 168–199): requires a truthy
`license_key`, then assigns `livePlayersByLicense[key]` and
`serverState[key]` wholesale. Returns success and both updated maps. (The
best-effort Supabase upsert mirrors the same values and is outside the
in-memory state.) -/
def heartbeat (live : List (String × List Player))
    (state : List (String × ServerState)) (req : HeartbeatReq) (now : Int) :
    Bool × List (String × List Player) × List (String × ServerState) :=
  if ¬ truthy req.license_key then
    (false, live, state)
  else
    let key := req.license_key.getD ""
    let roster := rosterOf req.players
    (true,
     mapSet live key roster,
     mapSet state key
       { last_seen := now
         players := roster.length
         uptime := orZero (req.uptime.getD 0)
         version := orNull req.version })

/-- Body answered by `GET /api/server/status/:license`. -/
structure StatusView where
  online : Bool
  players : Nat
  uptime : Int
  version : Option String
  last_seen : Option Int
deriving Repr, DecidableEq

/-- `GET /api/server/status/:license` (src/index.js 204–219): unknown keys
get the explicit offline/zero view; known keys get
`online = Date.now() - last_seen < 30000` with the stored fields. -/
def getStatus (state : List (String × ServerState)) (key : String)
    (now : Int) : StatusView :=
  match mapGet state key with
  | none =>
      { online := false, players := 0, uptime := 0, version := none,
        last_seen := none }
  | some d =>
      { online := now - d.last_seen < 30000
        players := orZeroNat d.players
        uptime := orZero d.uptime
        version := orNull d.version
        last_seen := some d.last_seen }

/-! ## Log ring buffer -/

/-- An entry of `serverLogs[license_key]`:
`{ time, type, title, message, meta }`. -/
structure LogEntry where
  time : Int
  type : String
  title : String
  message : String
  meta : String
deriving Repr, DecidableEq

/-- `pushServerLog(license_key, item)` on one buffer (src/index.js 224–228):
`unshift` (prepend), then truncate to length 300 by assigning `.length`
(drops from the tail, i.e. the oldest entries). -/
def pushServerLog (q : List LogEntry) (item : LogEntry) : List LogEntry :=
  let q1 := item :: q
  if q1.length > 300 then q1.take 300 else q1

/-- `POST /api/server/log` (src/index.js 230–246): requires truthy
`license_key` and `message`, then pushes the entry with the
defaults for `type`, `title` and `meta`. -/
def appendLog (logs : List (String × List LogEntry))
    (license_key message ty title meta : Option String) (now : Int) :
    Bool × List (String × List LogEntry) :=
  if ¬ truthy license_key ∨ ¬ truthy message then
    (false, logs)
  else
    let key := license_key.getD ""
    let item : LogEntry :=
      { time := now
        type := orDefault ty "log"
        title := orDefault title "Server"
        message := message.getD ""
        meta := orDefault meta "" }
    (true, mapSet logs key (pushServerLog ((mapGet logs key).getD []) item))

/-- `GET /api/server/logs/:license`: `serverLogs[license] || []`. -/
def getLogs (logs : List (String × List LogEntry)) (key : String) :
    List LogEntry :=
  (mapGet logs key).getD []

/-! ## Helper lemmas -/

theorem mapGet_mapSet_self {α : Type} (m : List (String × α)) (k : String)
    (v : α) : mapGet (mapSet m k v) k = some v := by
  induction m with
  | nil => simp [mapGet, mapSet]
  | cons hd tl ih =>
    obtain ⟨k', v'⟩ := hd
    by_cases h : k' = k
    · simp [mapGet, mapSet, h]
    · simp [mapGet, mapSet, h, ih]

theorem mapGet_mapSet_ne {α : Type} (m : List (String × α)) (k k' : String)
    (v : α) (h : k' ≠ k) : mapGet (mapSet m k v) k' = mapGet m k' := by
  have h' : ¬ k = k' := fun hh => h hh.symm
  induction m with
  | nil => simp [mapGet, mapSet, h']
  | cons hd tl ih =>
    obtain ⟨k0, v0⟩ := hd
    by_cases h0 : k0 = k
    · subst h0
      simp [mapGet, mapSet, h']
    · by_cases h1 : k0 = k'
      · subst h1
        simp [mapGet, mapSet, h0]
      · simp [mapGet, mapSet, h0, h1, ih]

theorem orZero_eq (x : Int) : orZero x = x := by
  unfold orZero
  split <;> simp_all

theorem orZeroNat_eq (x : Nat) : orZeroNat x = x := by
  unfold orZeroNat
  split <;> simp_all

theorem orNull_idem (x : Option String) : orNull (orNull x) = orNull x := by
  unfold orNull
  cases x with
  | none => rfl
  | some s =>
    by_cases h : s = "" <;> simp [h]

theorem pushAction_no_overflow (q : List Action) (a : Action)
    (h : q.length < 200) : pushAction q a = q ++ [a] := by
  simp only [pushAction, List.length_append, List.length_cons, List.length_nil]
  rw [if_neg (by omega)]

theorem foldl_pushAction_append (as : List Action) (q : List Action)
    (h : q.length + as.length ≤ 200) : as.foldl pushAction q = q ++ as := by
  induction as generalizing q with
  | nil => simp
  | cons a tl ih =>
    simp only [List.foldl_cons]
    rw [pushAction_no_overflow q a (by simp only [List.length_cons] at h; omega)]
    rw [ih (q ++ [a]) (by simp only [List.length_append, List.length_cons,
      List.length_nil] at h ⊢; omega)]
    simp

theorem pushServerLog_eq_take (q : List LogEntry) (e : LogEntry)
    (h : q.length ≤ 300) : pushServerLog q e = (e :: q).take 300 := by
  simp only [pushServerLog, List.length_cons]
  by_cases h1 : q.length + 1 > 300
  · rw [if_pos h1]
  · rw [if_neg h1, Eq.comm]
    exact List.take_of_length_le (by simp only [List.length_cons]; omega)

theorem take_append_take {α : Type} (A B : List α) (n m : Nat) (h : n ≤ m) :
    (A ++ B.take m).take n = (A ++ B).take n := by
  rw [List.take_append_eq_append_take, List.take_append_eq_append_take,
    List.take_take]
  congr 1
  rw [min_eq_left (le_trans (Nat.sub_le n _) h)]

theorem foldl_pushServerLog (es : List LogEntry) (q : List LogEntry)
    (h : q.length ≤ 300) :
    es.foldl pushServerLog q = (es.reverse ++ q).take 300 := by
  induction es generalizing q with
  | nil =>
    simp only [List.foldl_nil, List.reverse_nil, List.nil_append]
    exact (List.take_of_length_le h).symm
  | cons e tl ih =>
    simp only [List.foldl_cons, List.reverse_cons]
    rw [pushServerLog_eq_take q e h,
      ih ((e :: q).take 300) (by rw [List.length_take]; omega)]
    rw [take_append_take _ _ 300 300 (le_refl 300), List.append_assoc]
    simp

theorem getElem?_updateLastSeen (db : List LicenseRecord) (id : Nat) (t : Int)
    (i : Nat) :
    (updateLastSeen db id t)[i]? =
      db[i]?.map (fun r => if r.id = id then { r with last_seen := some t }
        else r) := by
  simp [updateLastSeen, List.getElem?_map]

theorem getElem?_updateHwid (db : List LicenseRecord) (id : Nat) (h : String)
    (i : Nat) :
    (updateHwid db id h)[i]? =
      db[i]?.map (fun r => if r.id = id then { r with hwid := some h }
        else r) := by
  simp [updateHwid, List.getElem?_map]

theorem hwid_stable_updateLastSeen (db : List LicenseRecord) (id : Nat)
    (t : Int) (i : Nat) (r : LicenseRecord) (h : db[i]? = some r) :
    ∃ r', (updateLastSeen db id t)[i]? = some r' ∧ r'.hwid = r.hwid := by
  rw [getElem?_updateLastSeen, h]
  refine ⟨_, rfl, ?_⟩
  by_cases hid : r.id = id <;> simp [hid]

/-- A record whose id differs from the one being re-bound is untouched by
`updateHwid`. -/
theorem updateHwid_other (db : List LicenseRecord) (id : Nat) (h : String)
    (i : Nat) (r : LicenseRecord) (hr : db[i]? = some r) (hid : r.id ≠ id) :
    (updateHwid db id h)[i]? = some r := by
  rw [getElem?_updateHwid, hr]
  simp [hid]

/-- With pairwise-distinct ids, a record that is not the fetched one has a
different id from it. -/
theorem id_ne_of_find? (db : List LicenseRecord) (key : String)
    (lic : LicenseRecord) (hfind : dbFind db key = some lic)
    (hnodup : (db.map (fun r => r.id)).Nodup) (i : Nat) (r : LicenseRecord)
    (hr : db[i]? = some r) (hne : r ≠ lic) : r.id ≠ lic.id := by
  intro hid
  apply hne
  have hmem : lic ∈ db := List.mem_of_find?_eq_some hfind
  obtain ⟨j, hj, hje⟩ := List.mem_iff_getElem.1 hmem
  obtain ⟨hi, hie⟩ := List.getElem?_eq_some_iff.1 hr
  have hi' : i < (db.map (fun r => r.id)).length := by simpa using hi
  have hj' : j < (db.map (fun r => r.id)).length := by simpa using hj
  have hmi : (db.map (fun r => r.id)).get ⟨i, hi'⟩ =
      (db.map (fun r => r.id)).get ⟨j, hj'⟩ := by
    simp only [List.get_eq_getElem, List.getElem_map]
    rw [hie, hje, hid]
  have hij : i = j :=
    congrArg Fin.val ((List.Nodup.get_inj_iff hnodup).1 hmi)
  subst hij
  exact hie.symm.trans hje

/-! ## Sample data for concrete instantiations -/

/-- An active, unexpired, unbound license record. -/
def sampleActive : LicenseRecord :=
  { id := 1, license_key := "K", status := "ACTIVE", expires_at := none,
    hwid := none, last_seen := none }

/-- A license record whose stored status is "PAUSED". -/
def samplePaused : LicenseRecord :=
  { sampleActive with id := 2, status := "PAUSED" }

/-- An active record that expired at t = 500 ms. -/
def sampleExpired : LicenseRecord :=
  { sampleActive with id := 3, expires_at := some 500 }

/-- An active record already bound to device "A". -/
def sampleBound : LicenseRecord :=
  { sampleActive with id := 4, hwid := some "A" }

/-- A numbered sample action. -/
def mkAction (n : Nat) : Action :=
  { id := toString n, type := "kick", payload := "", created_at := "" }

/-- A numbered sample log entry. -/
def mkLogEntry (n : Nat) : LogEntry :=
  { time := (n : Int), type := "log", title := "Server", message := toString n,
    meta := "" }

/-- A sample heartbeat body. -/
def sampleHeartbeat : HeartbeatReq :=
  { license_key := some "K",
    players := some [{ id := 1, name := "Alice", ping := 20 }],
    version := some "3.0.0", uptime := some 42 }

/-! ## Claims -/

/-- **C1.** For every call to verifyLicense, the policy checks are applied in
order and short-circuit: a missing `license_key` yields `valid=false` with
reason `MISSING_KEY`, the store untouched and no external store call in the
trace; on a fetched record whose status is not `ACTIVE` the result is
`valid=false` with the stored status string verbatim as reason; on an
`ACTIVE` record whose `expires_at` is set and in the past the reason is
`EXPIRED`; and a signed token (`valid=true` with payload and signature) is
returned only when the key is present, the store read succeeded, the status
is `ACTIVE`, the expiry has not passed and the HWID check does not fire. -/
theorem verify_policy_short_circuit (envSecret : Option String)
    (health : StoreHealth) (now : Int) (db : List LicenseRecord)
    (license_key hwid : Option String) :
    (¬ truthy license_key →
       verifyLicense envSecret health now db license_key hwid =
         (rejectWith 400 "MISSING_KEY", db, [])) ∧
    (truthy license_key → health = .healthy →
       ∀ lic, dbFind db (license_key.getD "") = some lic →
         (lic.status ≠ "ACTIVE" →
            verifyLicense envSecret health now db license_key hwid =
              (rejectWith 200 lic.status, db, [.fetch (license_key.getD "")])) ∧
         (∀ e, lic.status = "ACTIVE" → lic.expires_at = some e → e < now →
            verifyLicense envSecret health now db license_key hwid =
              (rejectWith 200 "EXPIRED", db, [.fetch (license_key.getD "")]))) ∧
    ((verifyLicense envSecret health now db license_key hwid).1.valid = true →
       truthy license_key ∧ health = .healthy ∧
       ∃ lic, dbFind db (license_key.getD "") = some lic ∧
         lic.status = "ACTIVE" ∧
         (∀ e, lic.expires_at = some e → ¬ e < now) ∧
         ¬ (truthy lic.hwid ∧ truthy hwid ∧ lic.hwid ≠ hwid) ∧
         (verifyLicense envSecret health now db license_key hwid).1.payload =
           some (mkPayload (license_key.getD "") lic.status lic.expires_at now) ∧
         (verifyLicense envSecret health now db license_key hwid).1.signature =
           some (hmacSHA256 (effectiveLicenseSecret envSecret)
             (mkPayload (license_key.getD "") lic.status lic.expires_at now))) := by
  refine ⟨?_, ?_, ?_⟩
  · intro h
    simp [verifyLicense, h]
  · intro hk hh lic hfind
    subst hh
    constructor
    · intro hs
      simp [verifyLicense, hk, hfind, hs]
    · intro e hs he hlt
      simp [verifyLicense, hk, hfind, hs, he, hlt]
  · intro hv
    by_cases hk : truthy license_key
    · cases health with
      | throws => simp [verifyLicense, hk, rejectWith] at hv
      | errors => simp [verifyLicense, hk, rejectWith] at hv
      | healthy =>
        refine ⟨hk, rfl, ?_⟩
        cases hfind : dbFind db (license_key.getD "") with
        | none => simp [verifyLicense, hk, hfind, rejectWith] at hv
        | some lic =>
          refine ⟨lic, rfl, ?_⟩
          by_cases hs : lic.status = "ACTIVE"
          · by_cases hex : (match lic.expires_at with
                 | some e => decide (e < now)
                 | none => false) = true
            · simp [verifyLicense, hk, hfind, hs, hex, rejectWith] at hv
            · by_cases hmm : truthy lic.hwid ∧ truthy hwid ∧ lic.hwid ≠ hwid
              · simp [verifyLicense, hk, hfind, hs, hex, hmm, rejectWith] at hv
              · refine ⟨hs, ?_, hmm, ?_, ?_⟩
                · intro e he hlt
                  rw [he] at hex
                  simp [hlt] at hex
                · by_cases hw1 : truthy lic.hwid
                  · have hnmm : ¬ (truthy hwid ∧ lic.hwid ≠ hwid) :=
                      fun hc => hmm ⟨hw1, hc⟩
                    simp [verifyLicense, hk, hfind, hs, hex, hw1, hnmm]
                  · by_cases hw2 : truthy hwid
                    · simp [verifyLicense, hk, hfind, hs, hex, hw1, hw2]
                    · simp [verifyLicense, hk, hfind, hs, hex, hw1, hw2]
                · by_cases hw1 : truthy lic.hwid
                  · have hnmm : ¬ (truthy hwid ∧ lic.hwid ≠ hwid) :=
                      fun hc => hmm ⟨hw1, hc⟩
                    simp [verifyLicense, hk, hfind, hs, hex, hw1, hnmm]
                  · by_cases hw2 : truthy hwid
                    · simp [verifyLicense, hk, hfind, hs, hex, hw1, hw2]
                    · simp [verifyLicense, hk, hfind, hs, hex, hw1, hw2]
          · simp [verifyLicense, hk, hfind, hs, rejectWith] at hv
    · simp [verifyLicense, hk, rejectWith] at hv

/-- Concrete witness for C1: the missing-key, non-ACTIVE-status, expired and
all-checks-pass branches, each at an explicit input. -/
theorem verify_policy_short_circuit_witness :
    (verifyLicense (some "s") .healthy 1000 [] none none =
      (rejectWith 400 "MISSING_KEY", [], [])) ∧
    (verifyLicense (some "s") .healthy 1000 [samplePaused] (some "K") none =
      (rejectWith 200 samplePaused.status, [samplePaused], [.fetch "K"])) ∧
    (verifyLicense (some "s") .healthy 1000 [sampleExpired] (some "K") none =
      (rejectWith 200 "EXPIRED", [sampleExpired], [.fetch "K"])) ∧
    (truthy (some "K") ∧ StoreHealth.healthy = StoreHealth.healthy ∧
      ∃ lic, dbFind [sampleActive] "K" = some lic ∧
        lic.status = "ACTIVE" ∧
        (∀ e, lic.expires_at = some e → ¬ e < (1000 : Int)) ∧
        ¬ (truthy lic.hwid ∧ truthy (none : Option String) ∧ lic.hwid ≠ none) ∧
        (verifyLicense (some "s") .healthy 1000 [sampleActive] (some "K")
          none).1.payload =
          some (mkPayload "K" lic.status lic.expires_at 1000) ∧
        (verifyLicense (some "s") .healthy 1000 [sampleActive] (some "K")
          none).1.signature =
          some (hmacSHA256 (effectiveLicenseSecret (some "s"))
            (mkPayload "K" lic.status lic.expires_at 1000))) := by
  refine ⟨(verify_policy_short_circuit (some "s") .healthy 1000 [] none
      none).1 (by decide), ?_, ?_,
    (verify_policy_short_circuit (some "s") .healthy 1000 [sampleActive]
      (some "K") none).2.2 (by decide)⟩
  · exact ((verify_policy_short_circuit (some "s") .healthy 1000 [samplePaused]
      (some "K") none).2.1 (by decide) rfl samplePaused (by decide)).1
      (by decide)
  · exact ((verify_policy_short_circuit (some "s") .healthy 1000 [sampleExpired]
      (some "K") none).2.1 (by decide) rfl sampleExpired (by decide)).2 500 rfl
      rfl (by decide)

/-- Case analysis of the store contents after a verify call: either the
store is unchanged, or only `last_seen` of the fetched record was touched,
or additionally the fetched record — whose `hwid` was falsy — had its `hwid`
bound. -/
theorem verify_db_cases (envSecret : Option String) (health : StoreHealth)
    (now : Int) (db : List LicenseRecord) (license_key hwid : Option String) :
    (verifyLicense envSecret health now db license_key hwid).2.1 = db ∨
    (∃ lic, dbFind db (license_key.getD "") = some lic ∧
       (verifyLicense envSecret health now db license_key hwid).2.1 =
         updateLastSeen db lic.id now) ∨
    (∃ lic, dbFind db (license_key.getD "") = some lic ∧ ¬ truthy lic.hwid ∧
       (verifyLicense envSecret health now db license_key hwid).2.1 =
         updateLastSeen (updateHwid db lic.id (hwid.getD "")) lic.id now) := by
  by_cases hk : truthy license_key
  · cases health with
    | throws => left; simp [verifyLicense, hk]
    | errors => left; simp [verifyLicense, hk]
    | healthy =>
      cases hfind : dbFind db (license_key.getD "") with
      | none => left; simp [verifyLicense, hk, hfind]
      | some lic =>
        by_cases hs : lic.status = "ACTIVE"
        · by_cases hex : (match lic.expires_at with
               | some e => decide (e < now)
               | none => false) = true
          · left; simp [verifyLicense, hk, hfind, hs, hex]
          · by_cases hw1 : truthy lic.hwid
            · by_cases hmm : truthy hwid ∧ lic.hwid ≠ hwid
              · left; simp [verifyLicense, hk, hfind, hs, hex, hw1, hmm]
              · right; left
                refine ⟨lic, rfl, ?_⟩
                simp [verifyLicense, hk, hfind, hs, hex, hw1, hmm]
            · by_cases hw2 : truthy hwid
              · right; right
                refine ⟨lic, rfl, hw1, ?_⟩
                simp [verifyLicense, hk, hfind, hs, hex, hw1, hw2]
              · right; left
                refine ⟨lic, rfl, ?_⟩
                simp [verifyLicense, hk, hfind, hs, hex, hw1, hw2]
        · left; simp [verifyLicense, hk, hfind, hs]
  · left; simp [verifyLicense, hk]

/-- **C2.** Verification never changes a non-null `hwid`: for every stored
record with a truthy `hwid`, the record at the same position after any
verify call still has that `hwid` (write-once binding), assuming the stored
ids are pairwise distinct. Concretely: `verify(K,"A")` on a null-hwid record
binds "A" and succeeds, a subsequent `verify(K,"B")` answers
`HWID_MISMATCH`, and a subsequent `verify(K,"A")` succeeds again. -/
theorem verify_hwid_write_once (envSecret : Option String)
    (health : StoreHealth) (now : Int) (db : List LicenseRecord)
    (license_key hwid : Option String)
    (hnodup : (db.map (fun r => r.id)).Nodup) :
    (∀ i : Nat, ∀ r, db[i]? = some r → truthy r.hwid →
       ∃ r', (verifyLicense envSecret health now db license_key hwid).2.1[i]? =
         some r' ∧ r'.hwid = r.hwid) ∧
    ((verifyLicense (some "s") .healthy 1000 [sampleActive] (some "K")
       (some "A")).1.valid = true ∧
     (verifyLicense (some "s") .healthy 1000 [sampleActive] (some "K")
       (some "A")).2.1 =
       [{ sampleActive with hwid := some "A", last_seen := some 1000 }] ∧
     (verifyLicense (some "s") .healthy 1100
       [{ sampleActive with hwid := some "A", last_seen := some 1000 }]
       (some "K") (some "B")).1 = rejectWith 200 "HWID_MISMATCH" ∧
     (verifyLicense (some "s") .healthy 1200
       [{ sampleActive with hwid := some "A", last_seen := some 1000 }]
       (some "K") (some "A")).1.valid = true) := by
  constructor
  · intro i r hr htr
    rcases verify_db_cases envSecret health now db license_key hwid with
      hdb | ⟨lic, hfind, hdb⟩ | ⟨lic, hfind, hlic, hdb⟩
    · rw [hdb]; exact ⟨r, hr, rfl⟩
    · rw [hdb]; exact hwid_stable_updateLastSeen db lic.id now i r hr
    · rw [hdb]
      have hne : r ≠ lic := by
        intro he
        rw [he] at htr
        exact hlic htr
      have hid := id_ne_of_find? db (license_key.getD "") lic hfind hnodup i r
        hr hne
      have h2 := updateHwid_other db lic.id (hwid.getD "") i r hr hid
      exact hwid_stable_updateLastSeen _ lic.id now i r h2
  · exact ⟨by decide, by decide, by decide, by decide⟩

/-- Concrete witness for C2: on a record already bound to "A", a verify call
supplying "A" leaves the stored hwid untouched. -/
theorem verify_hwid_write_once_witness :
    ∃ r', (verifyLicense (some "s") .healthy 1000 [sampleBound] (some "K")
      (some "A")).2.1[0]? = some r' ∧ r'.hwid = sampleBound.hwid :=
  (verify_hwid_write_once (some "s") .healthy 1000 [sampleBound] (some "K")
    (some "A") (by decide)).1 0 sampleBound (by decide) (by decide)

/-- **C3 counterexample.** The claim "no call to verifyLicense returns
valid=true with a payload and signature while the signing secret is unset"
is false: with the secret absent from the environment, a verify call on an
active license still answers `valid=true` with a payload and a signature,
because the source falls back to the hard-coded secret `"change_me"`
(`process.env.LICENSE_SECRET || "change_me"`). -/
theorem missing_secret_still_issues_counterexample :
    (verifyLicense none .healthy 1000 [sampleActive] (some "K") none).1.valid
      = true ∧
    (verifyLicense none .healthy 1000 [sampleActive] (some "K")
      none).1.payload.isSome = true ∧
    (verifyLicense none .healthy 1000 [sampleActive] (some "K")
      none).1.signature.isSome = true :=
  ⟨by decide, by decide, by decide⟩

/-- Whenever verify issues a payload, the accompanying signature is the HMAC
of exactly that payload under the effective secret. -/
theorem verify_signature_shape (envSecret : Option String)
    (health : StoreHealth) (now : Int) (db : List LicenseRecord)
    (license_key hwid : Option String) :
    (verifyLicense envSecret health now db license_key hwid).1.signature =
      Option.map (hmacSHA256 (effectiveLicenseSecret envSecret))
        (verifyLicense envSecret health now db license_key hwid).1.payload := by
  by_cases hk : truthy license_key
  · cases health with
    | throws => simp [verifyLicense, hk, rejectWith]
    | errors => simp [verifyLicense, hk, rejectWith]
    | healthy =>
      cases hfind : dbFind db (license_key.getD "") with
      | none => simp [verifyLicense, hk, hfind, rejectWith]
      | some lic =>
        by_cases hs : lic.status = "ACTIVE"
        · by_cases hex : (match lic.expires_at with
               | some e => decide (e < now)
               | none => false) = true
          · simp [verifyLicense, hk, hfind, hs, hex, rejectWith]
          · by_cases hw1 : truthy lic.hwid
            · by_cases hmm : truthy hwid ∧ lic.hwid ≠ hwid
              · simp [verifyLicense, hk, hfind, hs, hex, hw1, hmm, rejectWith]
              · simp [verifyLicense, hk, hfind, hs, hex, hw1, hmm]
            · by_cases hw2 : truthy hwid
              · simp [verifyLicense, hk, hfind, hs, hex, hw1, hw2]
              · simp [verifyLicense, hk, hfind, hs, hex, hw1, hw2]
        · simp [verifyLicense, hk, hfind, hs, rejectWith]
  · simp [verifyLicense, hk, rejectWith]

/-- **C3 amended.** If the signing-secret environment variable is absent (or
empty), the process does not refuse to issue tokens: it silently substitutes
the hard-coded fallback secret `"change_me"`, and every payload it issues is
signed with that fallback. -/
theorem missing_secret_fallback (envSecret : Option String)
    (health : StoreHealth) (now : Int) (db : List LicenseRecord)
    (license_key hwid : Option String)
    (hs : envSecret = none ∨ envSecret = some "") :
    effectiveLicenseSecret envSecret = "change_me" ∧
    ∀ p, (verifyLicense envSecret health now db license_key hwid).1.payload =
        some p →
      (verifyLicense envSecret health now db license_key hwid).1.signature =
        some (hmacSHA256 "change_me" p) := by
  have he : effectiveLicenseSecret envSecret = "change_me" := by
    rcases hs with h | h <;> subst h <;> rfl
  refine ⟨he, ?_⟩
  intro p hp
  rw [verify_signature_shape, hp, he]
  rfl

/-- Concrete witness for the amended C3: with the secret unset, the
issued signature is the HMAC under `"change_me"`. -/
theorem missing_secret_fallback_witness :
    effectiveLicenseSecret none = "change_me" ∧
    (verifyLicense none .healthy 1000 [sampleActive] (some "K")
      none).1.signature =
      some (hmacSHA256 "change_me" (mkPayload "K" "ACTIVE" none 1000)) :=
  ⟨(missing_secret_fallback none .healthy 1000 [sampleActive] (some "K") none
      (Or.inl rfl)).1,
    (missing_secret_fallback none .healthy 1000 [sampleActive] (some "K") none
      (Or.inl rfl)).2 (mkPayload "K" "ACTIVE" none 1000) (by decide)⟩

/-- **C4.** When the external store read fails (error result) or times out
(throws), verification fails closed: the result is `valid=false` and no
signature is issued. -/
theorem verify_fail_closed_on_store_failure (envSecret : Option String)
    (health : StoreHealth) (now : Int) (db : List LicenseRecord)
    (license_key hwid : Option String) (hfail : health ≠ .healthy) :
    (verifyLicense envSecret health now db license_key hwid).1.valid = false ∧
    (verifyLicense envSecret health now db license_key hwid).1.signature =
      none := by
  by_cases hk : truthy license_key
  · cases health with
    | healthy => exact absurd rfl hfail
    | errors => simp [verifyLicense, hk, rejectWith]
    | throws => simp [verifyLicense, hk, rejectWith]
  · simp [verifyLicense, hk, rejectWith]

/-- Concrete witness for C4: a failing store read on an otherwise-valid
request yields `valid=false` with no signature. -/
theorem verify_fail_closed_on_store_failure_witness :
    (verifyLicense (some "s") .errors 1000 [sampleActive] (some "K")
      none).1.valid = false ∧
    (verifyLicense (some "s") .errors 1000 [sampleActive] (some "K")
      none).1.signature = none :=
  verify_fail_closed_on_store_failure (some "s") .errors 1000 [sampleActive]
    (some "K") none (by decide)

/-- **C5.** On an ACTIVE, unexpired record with a non-null bound `hwid`, a
verify call that supplies no hwid is not rejected: it answers `valid=true`
with a signature. `HWID_MISMATCH` is answered only when a hwid is supplied
and differs from the stored one. -/
theorem verify_hwid_optional (envSecret : Option String) (now : Int)
    (db : List LicenseRecord) (license_key hwid : Option String)
    (lic : LicenseRecord) (hk : truthy license_key)
    (hfind : dbFind db (license_key.getD "") = some lic)
    (hs : lic.status = "ACTIVE")
    (hex : ∀ e, lic.expires_at = some e → ¬ e < now)
    (hb : truthy lic.hwid) :
    (¬ truthy hwid →
       (verifyLicense envSecret .healthy now db license_key hwid).1.valid =
         true ∧
       (verifyLicense envSecret .healthy now db license_key
         hwid).1.signature.isSome = true) ∧
    ((verifyLicense envSecret .healthy now db license_key hwid).1.reason =
       some "HWID_MISMATCH" → truthy hwid ∧ lic.hwid ≠ hwid) := by
  have hex' : (match lic.expires_at with
      | some e => decide (e < now)
      | none => false) = false := by
    cases hhe : lic.expires_at with
    | none => rfl
    | some e => simpa using hex e hhe
  constructor
  · intro hw
    have hnmm : ¬ (truthy hwid ∧ lic.hwid ≠ hwid) := fun hc => hw hc.1
    constructor <;> simp [verifyLicense, hk, hfind, hs, hex', hb, hnmm]
  · intro hr
    by_cases hmm : truthy hwid ∧ lic.hwid ≠ hwid
    · exact hmm
    · exfalso
      simp [verifyLicense, hk, hfind, hs, hex', hb, hmm] at hr

/-- Concrete witness for C5: a bound record, no hwid supplied, token
issued. -/
theorem verify_hwid_optional_witness :
    (verifyLicense (some "s") .healthy 1000 [sampleBound] (some "K")
      none).1.valid = true ∧
    (verifyLicense (some "s") .healthy 1000 [sampleBound] (some "K")
      none).1.signature.isSome = true :=
  (verify_hwid_optional (some "s") 1000 [sampleBound] (some "K") none
    sampleBound (by decide) (by decide) (by decide)
    (fun e he => by simp [sampleBound, sampleActive] at he) (by decide)).1
    (by decide)

/-- Growing a queue by enqueues below the cap appends in order. -/
theorem mapGet_foldl_enqueue (key : String) (as : List Action) :
    ∀ m : List (String × List Action),
      ((mapGet m key).getD []).length + as.length ≤ 200 →
      (mapGet (as.foldl (fun m' a => enqueueAction m' key a) m) key).getD [] =
        ((mapGet m key).getD []) ++ as := by
  induction as with
  | nil => intro m _; simp
  | cons a tl ih =>
    intro m h
    simp only [List.foldl_cons]
    have hq : mapGet (enqueueAction m key a) key =
        some (((mapGet m key).getD []) ++ [a]) := by
      unfold enqueueAction
      rw [mapGet_mapSet_self,
        pushAction_no_overflow _ a (by simp only [List.length_cons] at h; omega)]
    rw [ih (enqueueAction m key a)
      (by rw [hq]; simp only [Option.getD_some, List.length_append,
        List.length_cons, List.length_nil]
          simp only [List.length_cons] at h; omega)]
    rw [hq]
    simp

/-- **C6.** `drainActions` answers the currently queued actions and empties
the queue in the same step: the returned list is exactly the stored queue,
the stored queue becomes `[]`, an immediate second drain answers `[]`, and —
starting from an empty queue — after enqueueing `as` (≤ 200 actions) the
drain answers `as` in FIFO order and the drain after it answers `[]`, so
each action is delivered in at most one drain result. -/
theorem drainActions_fifo_consume_once (m : List (String × List Action))
    (key : String) (as : List Action)
    (h0 : (mapGet m key).getD [] = []) (hlen : as.length ≤ 200) :
    (drainActions m key).1 = (mapGet m key).getD [] ∧
    mapGet (drainActions m key).2 key = some [] ∧
    (drainActions (drainActions m key).2 key).1 = [] ∧
    (drainActions (as.foldl (fun m' a => enqueueAction m' key a) m) key).1 =
      as ∧
    (drainActions (drainActions
      (as.foldl (fun m' a => enqueueAction m' key a) m) key).2 key).1 = [] := by
  refine ⟨rfl, mapGet_mapSet_self m key [], ?_, ?_, ?_⟩
  · simp [drainActions, mapGet_mapSet_self]
  · have hgrow := mapGet_foldl_enqueue key as m (by rw [h0]; simpa using hlen)
    rw [h0] at hgrow
    simp only [List.nil_append] at hgrow
    simp [drainActions, hgrow]
  · simp [drainActions, mapGet_mapSet_self]

/-- Concrete witness for C6: enqueue three actions, drain them in FIFO
order, and the immediate second drain is empty. -/
theorem drainActions_fifo_consume_once_witness :
    (drainActions ([mkAction 0, mkAction 1, mkAction 2].foldl
      (fun m' a => enqueueAction m' "K" a) []) "K").1 =
      [mkAction 0, mkAction 1, mkAction 2] ∧
    (drainActions (drainActions ([mkAction 0, mkAction 1, mkAction 2].foldl
      (fun m' a => enqueueAction m' "K" a) []) "K").2 "K").1 = [] :=
  ⟨(drainActions_fifo_consume_once [] "K" [mkAction 0, mkAction 1, mkAction 2]
      (by decide) (by decide)).2.2.2.1,
   (drainActions_fifo_consume_once [] "K" [mkAction 0, mkAction 1, mkAction 2]
      (by decide) (by decide)).2.2.2.2⟩

/-- **C7.** `pushAction` appends; when the post-append length would exceed
200 the oldest 50 actions are evicted as one batch (`splice(0, 50)`), so in
the overflow case the post-append length is 151, and a queue that respected
the 200 bound still respects it after any push. -/
theorem pushAction_bounded (q : List Action) (a : Action)
    (h : q.length ≤ 200) :
    (q.length < 200 → pushAction q a = q ++ [a]) ∧
    (q.length = 200 →
       pushAction q a = (q ++ [a]).drop 50 ∧ (pushAction q a).length = 151) ∧
    (pushAction q a).length ≤ 200 := by
  refine ⟨fun hlt => pushAction_no_overflow q a hlt, fun heq => ⟨?_, ?_⟩, ?_⟩
  · simp only [pushAction, List.length_append, List.length_cons,
      List.length_nil]
    rw [if_pos (by omega)]
  · simp only [pushAction, List.length_append, List.length_cons,
      List.length_nil]
    rw [if_pos (by omega)]
    simp only [List.length_drop, List.length_append, List.length_cons,
      List.length_nil]
    omega
  · by_cases hlt : q.length < 200
    · rw [pushAction_no_overflow q a hlt]
      simp only [List.length_append, List.length_cons, List.length_nil]
      omega
    · have heq : q.length = 200 := by omega
      simp only [pushAction, List.length_append, List.length_cons,
        List.length_nil]
      rw [if_pos (by omega)]
      simp only [List.length_drop, List.length_append, List.length_cons,
        List.length_nil]
      omega

/-- Concrete witness for C7: pushing the 201st action evicts the oldest 50,
leaving 151. -/
theorem pushAction_bounded_witness :
    pushAction ((List.range 200).map mkAction) (mkAction 200) =
      (((List.range 200).map mkAction) ++ [mkAction 200]).drop 50 ∧
    (pushAction ((List.range 200).map mkAction) (mkAction 200)).length = 151 :=
  (pushAction_bounded ((List.range 200).map mkAction) (mkAction 200)
    (by simp)).2.1 (by simp)

/-- **C8.** `getStatus` is purely derived at read time: a key with no
recorded heartbeat gets the explicit `{online:false, players:0, uptime:0,
version:null}` view; a recorded key is online exactly when
`now - last_heartbeat < 30000`, with the stored player count, uptime and
version reported regardless of staleness; and after a heartbeat at `t0` the
view at time `now` carries exactly the heartbeat's data with
`online = (now - t0 < 30000)`. -/
theorem getStatus_ttl (state : List (String × ServerState)) (key : String)
    (now : Int) :
    (mapGet state key = none →
       getStatus state key now =
         { online := false, players := 0, uptime := 0, version := none,
           last_seen := none }) ∧
    (∀ d, mapGet state key = some d →
       ((getStatus state key now).online = true ↔ now - d.last_seen < 30000) ∧
       (getStatus state key now).players = d.players ∧
       (getStatus state key now).uptime = d.uptime ∧
       (getStatus state key now).version = orNull d.version ∧
       (getStatus state key now).last_seen = some d.last_seen) ∧
    (∀ live st req t0, truthy req.license_key →
       getStatus (heartbeat live st req t0).2.2 (req.license_key.getD "")
           now =
         { online := decide (now - t0 < 30000),
           players := (rosterOf req.players).length,
           uptime := orZero (req.uptime.getD 0),
           version := orNull req.version,
           last_seen := some t0 }) := by
  refine ⟨?_, ?_, ?_⟩
  · intro h
    simp [getStatus, h]
  · intro d hd
    simp [getStatus, hd, orZero_eq, orZeroNat_eq]
  · intro live st req t0 hk
    simp only [heartbeat]
    rw [if_neg (by simp [hk])]
    simp only [getStatus, mapGet_mapSet_self, orZero_eq, orZeroNat_eq,
      orNull_idem]

/-- Concrete witness for C8: heartbeat at t=0, status at t=29999 is online,
at t=30001 offline with player count and version preserved. -/
theorem getStatus_ttl_witness :
    getStatus (heartbeat [] [] sampleHeartbeat 0).2.2 "K" 29999 =
      { online := true, players := 1, uptime := 42, version := some "3.0.0",
        last_seen := some 0 } ∧
    getStatus (heartbeat [] [] sampleHeartbeat 0).2.2 "K" 30001 =
      { online := false, players := 1, uptime := 42, version := some "3.0.0",
        last_seen := some 0 } :=
  ⟨(getStatus_ttl (heartbeat [] [] sampleHeartbeat 0).2.2 "K" 29999).2.2
      [] [] sampleHeartbeat 0 (by decide),
   (getStatus_ttl (heartbeat [] [] sampleHeartbeat 0).2.2 "K" 30001).2.2
      [] [] sampleHeartbeat 0 (by decide)⟩

/-- **C9.** The log buffer prepends and truncates to the most recent 300:
after appending 301 entries exactly 300 remain, the result reads
newest-first (it is the reverse of the append order, truncated), the
first-appended entry is the one evicted, and the log endpoint feeds
`pushServerLog` so `getLogs` returns the newest-first buffer. -/
theorem pushServerLog_ring_buffer (es : List LogEntry) (h : es.length = 301) :
    (es.foldl pushServerLog []).length = 300 ∧
    es.foldl pushServerLog [] = es.reverse.take 300 ∧
    (∀ e0 rest, es = e0 :: rest → es.foldl pushServerLog [] = rest.reverse) ∧
    (∀ logs lk msg ty ti me t, truthy lk → truthy msg →
       getLogs (appendLog logs lk msg ty ti me t).2 (lk.getD "") =
         pushServerLog (getLogs logs (lk.getD ""))
           { time := t, type := orDefault ty "log",
             title := orDefault ti "Server", message := msg.getD "",
             meta := orDefault me "" }) := by
  have hfold : es.foldl pushServerLog [] = es.reverse.take 300 := by
    rw [foldl_pushServerLog es [] (by simp)]
    simp
  refine ⟨?_, hfold, ?_, ?_⟩
  · rw [hfold, List.length_take, List.length_reverse, h]
    omega
  · intro e0 rest hes
    rw [hfold, hes]
    simp only [List.reverse_cons]
    have hr : rest.length = 300 := by
      rw [hes] at h
      simp only [List.length_cons] at h
      omega
    rw [← List.length_reverse rest] at hr
    rw [← hr, List.take_left]
  · intro logs lk msg ty ti me t hlk hmsg
    simp only [appendLog]
    rw [if_neg (by simp [hlk, hmsg])]
    simp only [getLogs, mapGet_mapSet_self, Option.getD_some]

/-- Concrete witness for C9: 301 appended entries leave 300, newest-first,
and one endpoint call prepends through `pushServerLog`. -/
theorem pushServerLog_ring_buffer_witness :
    (((List.range 301).map mkLogEntry).foldl pushServerLog []).length = 300 ∧
    ((List.range 301).map mkLogEntry).foldl pushServerLog [] =
      ((List.range 301).map mkLogEntry).reverse.take 300 ∧
    getLogs (appendLog [] (some "K") (some "hello") none none none 5).2 "K" =
      pushServerLog (getLogs [] "K")
        { time := 5, type := "log", title := "Server", message := "hello",
          meta := "" } :=
  ⟨(pushServerLog_ring_buffer ((List.range 301).map mkLogEntry) (by simp)).1,
   (pushServerLog_ring_buffer ((List.range 301).map mkLogEntry)
      (by simp)).2.1,
   (pushServerLog_ring_buffer ((List.range 301).map mkLogEntry)
      (by simp)).2.2.2 [] (some "K") (some "hello") none none none 5
      (by decide) (by decide)⟩

/-- **C10.** A heartbeat with a truthy license_key acknowledges success and
wholesale replaces the stored roster and liveness record with values derived
solely from the request and the current time — independent of whatever was
stored before — and in particular creates both entries on the first call. -/
theorem heartbeat_replaces_wholesale (live : List (String × List Player))
    (state : List (String × ServerState)) (req : HeartbeatReq) (now : Int)
    (hk : truthy req.license_key) :
    (heartbeat live state req now).1 = true ∧
    mapGet (heartbeat live state req now).2.1 (req.license_key.getD "") =
      some (rosterOf req.players) ∧
    mapGet (heartbeat live state req now).2.2 (req.license_key.getD "") =
      some { last_seen := now, players := (rosterOf req.players).length,
             uptime := orZero (req.uptime.getD 0),
             version := orNull req.version } := by
  unfold heartbeat
  rw [if_neg (by simp [hk])]
  exact ⟨rfl, mapGet_mapSet_self _ _ _, mapGet_mapSet_self _ _ _⟩

/-- Concrete witness for C10: a first heartbeat creates the roster and the
liveness record with exactly the posted values. -/
theorem heartbeat_replaces_wholesale_witness :
    (heartbeat [] [] sampleHeartbeat 100).1 = true ∧
    mapGet (heartbeat [] [] sampleHeartbeat 100).2.1 "K" =
      some [{ id := 1, name := "Alice", ping := 20 }] ∧
    mapGet (heartbeat [] [] sampleHeartbeat 100).2.2 "K" =
      some { last_seen := 100, players := 1, uptime := 42,
             version := some "3.0.0" } :=
  ⟨(heartbeat_replaces_wholesale [] [] sampleHeartbeat 100 (by decide)).1,
   (heartbeat_replaces_wholesale [] [] sampleHeartbeat 100 (by decide)).2.1,
   (heartbeat_replaces_wholesale [] [] sampleHeartbeat 100 (by decide)).2.2⟩

end GhostGuard
